import Mathlib

/-!
Verification development for the pdf2md orchestration core
(`src/processor.py`): usage tracking, chunk splitting, the remote
parse client with caching and failover, and the merge step of
`PDFProcessor.process_pdf`.

Python dictionaries are modelled as association lists with
insertion-order-preserving assignment (`dictInsert`).  The remote
network is modelled as an oracle mapping an endpoint URL to that
endpoint's outcome; image fetching as an oracle from URL to optional
bytes.  The client state threads the chunk cache (the `cache/<hash>/
chunk_<i>.json` files), the usage tracker's data (the per-day counters
of `usage_tracking_<tokenhash>.json`), and a log of the URLs that were
actually called over the network (observing remote calls).
-/

set_option linter.unusedVariables false

namespace Pdf2md

/-- Association-list lookup, modelling Python `dict.get` / key membership. -/
def lookupKey {K α : Type} [DecidableEq K] : List (K × α) → K → Option α
  | [], _ => none
  | (k, v) :: rest, key => if k = key then some v else lookupKey rest key

/-- Python `d[k] = v`: overwrite in place if the key exists, else append. -/
def dictInsert {K α : Type} [DecidableEq K] : List (K × α) → K → α → List (K × α)
  | [], key, v => [(key, v)]
  | (k, w) :: rest, key, v =>
    if k = key then (key, v) :: rest else (k, w) :: dictInsert rest key v

/-- `UsageTracker.limit` (src/processor.py line 25). -/
def limit : Nat := 3000

/-- `UsageTracker.get_todays_usage`: `self.data.get(today_str, 0)`. -/
def get_todays_usage (data : List (String × Nat)) (today : String) : Nat :=
  (lookupKey data today).getD 0

/-- `UsageTracker.add_usage`: `self.data[today_str] = current + pages` then save. -/
def add_usage (data : List (String × Nat)) (today : String) (pages : Nat) :
    List (String × Nat) :=
  dictInsert data today (get_todays_usage data today + pages)

/-- `UsageTracker.check_limit`: `(get_todays_usage() + pages_to_add) <= self.limit`. -/
def check_limit (data : List (String × Nat)) (today : String) (pages_to_add : Nat) :
    Bool :=
  decide (get_todays_usage data today + pages_to_add ≤ limit)

/-- `UsageTracker._load`: if the file exists, try to JSON-decode it; on a
decode error fall back to `{}`; if the file does not exist, `{}`.
`decode` stands for `json.load`, `file` for the file's contents when it
exists. -/
def load_usage (decode : String → Option (List (String × Nat)))
    (file : Option String) : List (String × Nat) :=
  match file with
  | some s =>
    match decode s with
    | some d => d
    | none => []
  | none => []

/-- `APIClient.primary_url`. -/
def primary_url : String := "https://dfk6l7c2y4o54057.aistudio-app.com/layout-parsing"

/-- `APIClient.secondary_url`. -/
def secondary_url : String := "https://adc092i3obx2l114.aistudio-app.com/layout-parsing"

/-- The endpoint list of `process_chunk`: `urls = [self.primary_url, self.secondary_url]`. -/
def urls : List String := [primary_url, secondary_url]

/-- One parsed page: `{'markdown': {'text': ..., 'images': {path: url}}}`.
The image dict is kept as an ordered association list (Python dicts keep
insertion order). -/
structure Page where
  text : String
  images : List (String × String)
deriving DecidableEq

/-- The validated response payload `result["result"]`:
`{'layoutParsingResults': [...pages...]}`. -/
structure ParseResult where
  layoutParsingResults : List Page
deriving DecidableEq

/-- Outcome of `requests.post` to one endpoint: either an exception
(network error, JSON decode error, ...) with its reason, or an HTTP
response with its status code and — when the decoded body has the
expected `result.layoutParsingResults` wrapper shape — the validated
payload (`none` models a malformed body). -/
inductive EndpointResponse where
  | exn (reason : String)
  | resp (status : Nat) (body : Option ParseResult)
deriving DecidableEq

/-- A response is valid iff the transport succeeded, the status is 200,
and the body has the expected wrapper shape. -/
def isValidResponse : EndpointResponse → Bool
  | .exn _ => false
  | .resp status body => status = 200 && body.isSome

/-- State threaded through the client: the chunk cache (keyed by
`(pdf_hash, chunk_index)`), the usage tracker's day→count data, and the
log of URLs called over the network. -/
structure ClientState where
  cache : List ((String × Nat) × ParseResult)
  usage : List (String × Nat)
  calls : List String
deriving DecidableEq

/-- The endpoint loop of `APIClient.process_chunk` (`for url in urls`):
try each URL once, in order; on status 200 with a well-shaped body,
write the cache file, `tracker.add_usage(10)` and return the payload;
on any other outcome move to the next URL; after the loop raise
`Exception("All API endpoints failed.")`. -/
def attempt_urls (key : String × Nat) (today : String)
    (net : String → EndpointResponse) :
    List String → ClientState → Except String ParseResult × ClientState
  | [], st => (Except.error "All API endpoints failed.", st)
  | url :: rest, st =>
    let st1 : ClientState := { st with calls := st.calls ++ [url] }
    match net url with
    | .resp status body =>
      if status = 200 then
        match body with
        | some result =>
          (Except.ok result,
            { st1 with cache := dictInsert st1.cache key result,
                       usage := add_usage st1.usage today 10 })
        | none => attempt_urls key today net rest st1
      else attempt_urls key today net rest st1
    | .exn _ => attempt_urls key today net rest st1

/-- `APIClient.process_chunk`: check the cache file for
`(pdf_hash, chunk_index)` and return its contents on a hit (no network
call, no usage update); otherwise run the endpoint loop. -/
def process_chunk (file_bytes : List Nat) (chunk_index : Nat) (pdf_hash : String)
    (today : String) (net : String → EndpointResponse) (st : ClientState) :
    Except String ParseResult × ClientState :=
  match lookupKey st.cache (pdf_hash, chunk_index) with
  | some cached => (Except.ok cached, st)
  | none => attempt_urls (pdf_hash, chunk_index) today net urls st

/-- `PDFProcessor.chunk_size = 10  # Pages per chunk`. -/
def chunk_size : Nat := 10

/-- The loop of `PDFProcessor.split_pdf`: `for i in range(0, pages_to_process,
self.chunk_size)` with `end = min(i + self.chunk_size, pages_to_process)` and
pages `range(i, end)` written into the chunk.  A chunk is modelled as
`(start_page, list of absolute page indices it contains)`. -/
def split_go (i n : Nat) : List (Nat × List Nat) :=
  if h : i < n then
    (i, List.range' i (min (i + chunk_size) n - i)) :: split_go (i + chunk_size) n
  else []
termination_by n - i
decreasing_by simp [chunk_size]; omega

/-- `PDFProcessor.split_pdf`: returns `(chunks, total_pages)`; the page-count
cap mentioned in the comment was removed, so `pages_to_process = total_pages`. -/
def split_pdf (n : Nat) : List (Nat × List Nat) × Nat :=
  (split_go 0 n, n)

/-- Python `str.replace` on character lists: replace every non-overlapping
occurrence of `pat`, scanning left to right.  For the empty pattern Python
would interleave `rep` between characters; this model returns the text
unchanged — the difference is never exercised because image paths are
nonempty. -/
def strReplace (s pat rep : List Char) : List Char :=
  match s with
  | [] => []
  | c :: rest =>
    if h : pat.isPrefixOf (c :: rest) ∧ 0 < pat.length then
      rep ++ strReplace ((c :: rest).drop pat.length) pat rep
    else
      c :: strReplace rest pat rep
termination_by s.length
decreasing_by
  · simp; omega
  · simp

/-- `text.replace(relative_path, new_path)` at the string level. -/
def pyReplace (s pat rep : String) : String :=
  ⟨strReplace s.data pat.data rep.data⟩

/-- `os.path.basename`: the suffix after the last `/` (empty for a
trailing slash), computed by a left fold that restarts at each `/`. -/
def basenameList (s : List Char) : List Char :=
  s.foldl (fun acc c => if c = '/' then [] else acc ++ [c]) []

/-- `os.path.basename` at the string level. -/
def basename (p : String) : String :=
  ⟨basenameList p.data⟩

/-- The rewritten image path of the merge loop:
`new_filename = f"chunk_{i}_{filename}"` and
`new_path = os.path.join("images", new_filename)`. -/
def new_image_path (chunk_i : Nat) (relative_path : String) : String :=
  "images/chunk_" ++ Nat.repr chunk_i ++ "_" ++ basename relative_path

/-- The inner image loop of the merge step of `process_pdf`
(`for relative_path, img_url in page_images.items()`): rewrite the path,
replace all its textual occurrences, and download the image into the
shared `images_map` (a failed download is logged and skipped).  The
`requests.get(img_url)` network call happens for every image on every
run — whether or not its bytes arrive — so each attempted URL is
recorded in a GET log returned as the third component. -/
def process_page_images (fetch : String → Option (List Nat)) (chunk_i : Nat) :
    List (String × String) → String → List (String × List Nat) → List String →
    String × List (String × List Nat) × List String
  | [], text, imap, gets => (text, imap, gets)
  | (relative_path, img_url) :: rest, text, imap, gets =>
    let new_path := new_image_path chunk_i relative_path
    let text1 := pyReplace text relative_path new_path
    let gets1 := gets ++ [img_url]
    let imap1 :=
      match fetch img_url with
      | some img_data => dictInsert imap new_path img_data
      | none => imap
    process_page_images fetch chunk_i rest text1 imap1 gets1

/-- The page loop of the merge step
(`for page_res in res["layoutParsingResults"]`): accumulate
`chunk_markdown += text + "\n\n"` while threading `images_map` and the
image GET log. -/
def process_result_pages (fetch : String → Option (List Nat)) (chunk_i : Nat) :
    List Page → String → List (String × List Nat) → List String →
    String × List (String × List Nat) × List String
  | [], chunk_markdown, imap, gets => (chunk_markdown, imap, gets)
  | page :: rest, chunk_markdown, imap, gets =>
    let p := process_page_images fetch chunk_i page.images page.text imap gets
    process_result_pages fetch chunk_i rest (chunk_markdown ++ p.1 ++ "\n\n")
      p.2.1 p.2.2

/-- The outer merge loop (`for i, res in enumerate(results)`):
`final_markdown += chunk_markdown`, threading `images_map` and the image
GET log across chunks. -/
def merge_results_go (fetch : String → Option (List Nat)) :
    Nat → List ParseResult → String → List (String × List Nat) → List String →
    String × List (String × List Nat) × List String
  | _, [], final_markdown, imap, gets => (final_markdown, imap, gets)
  | i, res :: rest, final_markdown, imap, gets =>
    let p := process_result_pages fetch i res.layoutParsingResults "" imap gets
    merge_results_go fetch (i + 1) rest (final_markdown ++ p.1) p.2.1 p.2.2

/-- The whole merge step of `process_pdf`: walk the indexed results in
chunk order starting from empty markdown, an empty `images_map` and an
empty GET log.  Returns `(final_markdown, images_map, image GET urls)`. -/
def merge_results (fetch : String → Option (List Nat))
    (results : List ParseResult) : String × List (String × List Nat) × List String :=
  merge_results_go fetch 0 results "" [] []

/-- The dispatch loop of `process_pdf`: every submitted chunk runs
`process_chunk(chunk_bytes, i, pdf_hash, tracker)` with `i` its position
in the chunk list (the `ThreadPoolExecutor` runs all submitted futures;
this model runs them in index order, threading the shared state). -/
def runChunks_go (pdf_hash today : String) (net : Nat → String → EndpointResponse) :
    Nat → List (Nat × List Nat) → ClientState →
    List (Except String ParseResult) × ClientState
  | _, [], st => ([], st)
  | i, c :: rest, st =>
    let p := process_chunk c.2 i pdf_hash today (net i) st
    let q := runChunks_go pdf_hash today net (i + 1) rest p.2
    (p.1 :: q.1, q.2)

/-- Run all chunks of a document, starting at chunk index 0. -/
def runChunks (pdf_hash today : String) (net : Nat → String → EndpointResponse)
    (chunks : List (Nat × List Nat)) (st : ClientState) :
    List (Except String ParseResult) × ClientState :=
  runChunks_go pdf_hash today net 0 chunks st

/-- The first error among the chunk outcomes (the `raise e` inside the
`as_completed` loop: one failing chunk aborts the whole batch). -/
def firstError : List (Except String ParseResult) → Option String
  | [] => none
  | Except.error e :: _ => some e
  | Except.ok _ :: rest => firstError rest

/-- The successful results, in chunk order (on the success path every
entry of `results` is present). -/
def collectOk : List (Except String ParseResult) → List ParseResult
  | [] => []
  | Except.ok r :: rest => r :: collectOk rest
  | Except.error _ :: rest => collectOk rest

/-- `PDFProcessor.process_pdf`: split, pre-check the quota
(`check_limit(0)`, else raise `Daily limit reached...`), run every chunk
through `process_chunk`, abort with the first error if any chunk failed,
otherwise merge the results into `(final_markdown, images_map)` — the
merge re-executes `requests.get` for every referenced image, so its GET
urls are appended to the state's network-call log.
`pdf_hash` stands for `hashlib.md5(file_bytes).hexdigest()` (the digest
itself is not modelled); `npages` is the page count of the document. -/
def process_pdf (pdf_hash today : String) (net : Nat → String → EndpointResponse)
    (fetch : String → Option (List Nat)) (npages : Nat) (st : ClientState) :
    Except String (String × List (String × List Nat)) × ClientState :=
  let chunks := (split_pdf npages).1
  if check_limit st.usage today 0 then
    let pr := runChunks pdf_hash today net chunks st
    match firstError pr.1 with
    | some e => (Except.error e, pr.2)
    | none =>
      let m := merge_results fetch (collectOk pr.1)
      (Except.ok (m.1, m.2.1), { pr.2 with calls := pr.2.calls ++ m.2.2 })
  else
    (Except.error ("Daily limit reached. Usage: " ++
      Nat.repr (get_todays_usage st.usage today) ++ "/3000"), st)

/-! ## Helper lemmas -/

theorem lookupKey_dictInsert_self {K α : Type} [DecidableEq K]
    (d : List (K × α)) (k : K) (v : α) :
    lookupKey (dictInsert d k v) k = some v := by
  induction d with
  | nil => simp [dictInsert, lookupKey]
  | cons hd tl ih =>
    obtain ⟨k', v'⟩ := hd
    by_cases h : k' = k
    · simp [dictInsert, h, lookupKey]
    · simp [dictInsert, h, lookupKey, ih]

theorem lookupKey_dictInsert_ne {K α : Type} [DecidableEq K]
    (d : List (K × α)) (k k' : K) (v : α) (h : k' ≠ k) :
    lookupKey (dictInsert d k v) k' = lookupKey d k' := by
  induction d with
  | nil => simp [dictInsert, lookupKey, Ne.symm h]
  | cons hd tl ih =>
    obtain ⟨k0, v0⟩ := hd
    by_cases h0 : k0 = k
    · subst h0
      simp [dictInsert, lookupKey, Ne.symm h]
    · simp only [dictInsert, if_neg h0, lookupKey]
      by_cases h1 : k0 = k'
      · simp [h1]
      · simp [h1, ih]

theorem get_todays_usage_add_usage (data : List (String × Nat))
    (today : String) (pages : Nat) :
    get_todays_usage (add_usage data today pages) today =
      get_todays_usage data today + pages := by
  simp [add_usage, get_todays_usage, lookupKey_dictInsert_self]

theorem split_go_flat (i n : Nat) :
    (split_go i n).flatMap (fun c => c.2) = List.range' i (n - i) := by
  induction i, n using split_go.induct with
  | case1 i n h ih =>
    rw [split_go, dif_pos h, List.flatMap_cons, ih]
    show List.range' i (min (i + chunk_size) n - i) ++
        List.range' (i + chunk_size) (n - (i + chunk_size)) = List.range' i (n - i)
    rcases Nat.le_total (i + chunk_size) n with hle | hle
    · rw [Nat.min_eq_left hle, Nat.add_sub_cancel_left]
      have happ := List.range'_append i chunk_size (n - (i + chunk_size)) 1
      simp only [Nat.one_mul] at happ
      rw [happ]
      congr 1
      omega
    · rw [Nat.min_eq_right hle]
      have h0 : n - (i + chunk_size) = 0 := by omega
      rw [h0, List.range'_zero, List.append_nil]
  | case2 i n h =>
    rw [split_go, dif_neg h]
    have h0 : n - i = 0 := by omega
    rw [h0, List.flatMap_nil, List.range'_zero]

theorem split_go_length (i n : Nat) :
    (split_go i n).length = (n - i + chunk_size - 1) / chunk_size := by
  induction i, n using split_go.induct with
  | case1 i n h ih =>
    rw [split_go, dif_pos h, List.length_cons, ih]
    simp only [chunk_size] at *
    omega
  | case2 i n h =>
    rw [split_go, dif_neg h, List.length_nil]
    simp only [chunk_size]
    omega

theorem split_go_mem (i n : Nat) :
    ∀ c ∈ split_go i n, c.2 = List.range' c.1 (min chunk_size (n - c.1)) := by
  induction i, n using split_go.induct with
  | case1 i n h ih =>
    intro c hc
    rw [split_go, dif_pos h] at hc
    rcases List.mem_cons.mp hc with rfl | hc
    · show List.range' i (min (i + chunk_size) n - i) = _
      congr 1
      omega
    · exact ih c hc
  | case2 i n h =>
    intro c hc
    rw [split_go, dif_neg h] at hc
    simp at hc

theorem isValidResponse_iff (x : EndpointResponse) :
    isValidResponse x = true ↔ ∃ r, x = EndpointResponse.resp 200 (some r) := by
  cases x with
  | exn reason => simp [isValidResponse]
  | resp status body =>
    cases body with
    | none => simp [isValidResponse]
    | some r => simp [isValidResponse, eq_comm]

theorem attempt_urls_step_fail (key : String × Nat) (today : String)
    (net : String → EndpointResponse) (url : String) (rest : List String)
    (st : ClientState) (hbad : isValidResponse (net url) = false) :
    attempt_urls key today net (url :: rest) st =
      attempt_urls key today net rest { st with calls := st.calls ++ [url] } := by
  cases hnet : net url with
  | exn reason => simp [attempt_urls, hnet]
  | resp status body =>
    rw [hnet] at hbad
    by_cases hs : status = 200
    · subst hs
      cases body with
      | none => simp [attempt_urls, hnet]
      | some r => simp [isValidResponse] at hbad
    · simp [attempt_urls, hnet, hs]

theorem attempt_urls_step_ok (key : String × Nat) (today : String)
    (net : String → EndpointResponse) (url : String) (rest : List String)
    (st : ClientState) (r : ParseResult)
    (hgood : net url = EndpointResponse.resp 200 (some r)) :
    attempt_urls key today net (url :: rest) st =
      (Except.ok r,
        { st with calls := st.calls ++ [url],
                  cache := dictInsert st.cache key r,
                  usage := add_usage st.usage today 10 }) := by
  simp [attempt_urls, hgood]

theorem attempt_urls_error (key : String × Nat) (today : String)
    (net : String → EndpointResponse) :
    ∀ (us : List String) (st : ClientState) (e : String),
    (attempt_urls key today net us st).1 = Except.error e →
    e = "All API endpoints failed." ∧
    (attempt_urls key today net us st).2 = { st with calls := st.calls ++ us } ∧
    ∀ u ∈ us, isValidResponse (net u) = false := by
  intro us
  induction us with
  | nil =>
    intro st e h
    simp [attempt_urls] at h ⊢
    exact h.symm
  | cons url rest ih =>
    intro st e h
    by_cases hv : isValidResponse (net url) = true
    · obtain ⟨r, hr⟩ := (isValidResponse_iff (net url)).mp hv
      rw [attempt_urls_step_ok key today net url rest st r hr] at h
      simp at h
    · rw [Bool.not_eq_true] at hv
      rw [attempt_urls_step_fail key today net url rest st hv] at h ⊢
      obtain ⟨he, hst, hall⟩ := ih _ _ h
      refine ⟨he, ?_, ?_⟩
      · rw [hst]
        simp
      · intro u hu
        rcases List.mem_cons.mp hu with rfl | hu
        · exact hv
        · exact hall u hu

theorem attempt_urls_ok (key : String × Nat) (today : String)
    (net : String → EndpointResponse) :
    ∀ (us : List String) (st : ClientState) (r : ParseResult),
    (attempt_urls key today net us st).1 = Except.ok r →
    (attempt_urls key today net us st).2.cache = dictInsert st.cache key r ∧
    (attempt_urls key today net us st).2.usage = add_usage st.usage today 10 := by
  intro us
  induction us with
  | nil =>
    intro st r h
    simp [attempt_urls] at h
  | cons url rest ih =>
    intro st r h
    by_cases hv : isValidResponse (net url) = true
    · obtain ⟨r0, hr0⟩ := (isValidResponse_iff (net url)).mp hv
      rw [attempt_urls_step_ok key today net url rest st r0 hr0] at h ⊢
      simp at h
      subst h
      exact ⟨rfl, rfl⟩
    · rw [Bool.not_eq_true] at hv
      rw [attempt_urls_step_fail key today net url rest st hv] at h ⊢
      exact ih _ _ h

theorem process_chunk_hit (file_bytes : List Nat) (chunk_index : Nat)
    (pdf_hash today : String) (net : String → EndpointResponse)
    (st : ClientState) (r : ParseResult)
    (h : lookupKey st.cache (pdf_hash, chunk_index) = some r) :
    process_chunk file_bytes chunk_index pdf_hash today net st =
      (Except.ok r, st) := by
  simp [process_chunk, h]

theorem process_chunk_miss (file_bytes : List Nat) (chunk_index : Nat)
    (pdf_hash today : String) (net : String → EndpointResponse)
    (st : ClientState)
    (h : lookupKey st.cache (pdf_hash, chunk_index) = none) :
    process_chunk file_bytes chunk_index pdf_hash today net st =
      attempt_urls (pdf_hash, chunk_index) today net urls st := by
  simp [process_chunk, h]

theorem process_chunk_cache_preserve (file_bytes : List Nat) (chunk_index : Nat)
    (pdf_hash today : String) (net : String → EndpointResponse)
    (st : ClientState) (k : String × Nat) (r : ParseResult)
    (hk : k ≠ (pdf_hash, chunk_index))
    (h : lookupKey st.cache k = some r) :
    lookupKey (process_chunk file_bytes chunk_index pdf_hash today net st).2.cache
      k = some r := by
  cases hc : lookupKey st.cache (pdf_hash, chunk_index) with
  | some rc =>
    rw [process_chunk_hit _ _ _ _ _ _ rc hc]
    exact h
  | none =>
    rw [process_chunk_miss _ _ _ _ _ _ hc]
    cases ho : (attempt_urls (pdf_hash, chunk_index) today net urls st).1 with
    | ok r' =>
      rw [(attempt_urls_ok _ _ _ _ _ _ ho).1, lookupKey_dictInsert_ne _ _ _ _ hk]
      exact h
    | error e =>
      rw [(attempt_urls_error _ _ _ _ _ _ ho).2.1]
      exact h

theorem process_chunk_ok_self (file_bytes : List Nat) (chunk_index : Nat)
    (pdf_hash today : String) (net : String → EndpointResponse)
    (st : ClientState) (r : ParseResult)
    (h : (process_chunk file_bytes chunk_index pdf_hash today net st).1 =
      Except.ok r) :
    lookupKey (process_chunk file_bytes chunk_index pdf_hash today net st).2.cache
      (pdf_hash, chunk_index) = some r := by
  cases hc : lookupKey st.cache (pdf_hash, chunk_index) with
  | some rc =>
    rw [process_chunk_hit _ _ _ _ _ _ rc hc] at h ⊢
    simp only at h
    simp only [Except.ok.injEq] at h
    subst h
    exact hc
  | none =>
    rw [process_chunk_miss _ _ _ _ _ _ hc] at h ⊢
    rw [(attempt_urls_ok _ _ _ _ _ _ h).1]
    exact lookupKey_dictInsert_self _ _ _

theorem runChunks_go_preserve (pdf_hash today : String)
    (net : Nat → String → EndpointResponse) :
    ∀ (cs : List (Nat × List Nat)) (i0 : Nat) (st : ClientState)
      (j : Nat) (r : ParseResult), j < i0 →
    lookupKey st.cache (pdf_hash, j) = some r →
    lookupKey ((runChunks_go pdf_hash today net i0 cs st).2).cache (pdf_hash, j) =
      some r := by
  intro cs
  induction cs with
  | nil =>
    intro i0 st j r hj h
    exact h
  | cons c rest ih =>
    intro i0 st j r hj h
    show lookupKey ((runChunks_go pdf_hash today net (i0 + 1) rest
        (process_chunk c.2 i0 pdf_hash today (net i0) st).2).2).cache
        (pdf_hash, j) = some r
    apply ih (i0 + 1) _ j r (Nat.lt_succ_of_lt hj)
    apply process_chunk_cache_preserve
    · intro he
      have : j = i0 := congrArg Prod.snd he
      omega
    · exact h

theorem runChunks_go_cache_ok (pdf_hash today : String)
    (net : Nat → String → EndpointResponse) :
    ∀ (cs : List (Nat × List Nat)) (i0 : Nat) (st : ClientState)
      (j : Nat) (r : ParseResult),
    ((runChunks_go pdf_hash today net i0 cs st).1)[j]? = some (Except.ok r) →
    lookupKey ((runChunks_go pdf_hash today net i0 cs st).2).cache
      (pdf_hash, i0 + j) = some r := by
  intro cs
  induction cs with
  | nil =>
    intro i0 st j r h
    simp [runChunks_go] at h
  | cons c rest ih =>
    intro i0 st j r h
    cases j with
    | zero =>
      have hp : (process_chunk c.2 i0 pdf_hash today (net i0) st).1 =
          Except.ok r := by
        simpa [runChunks_go] using h
      show lookupKey ((runChunks_go pdf_hash today net (i0 + 1) rest
          (process_chunk c.2 i0 pdf_hash today (net i0) st).2).2).cache
          (pdf_hash, i0 + 0) = some r
      rw [Nat.add_zero]
      exact runChunks_go_preserve pdf_hash today net rest (i0 + 1) _ i0 r
        (Nat.lt_succ_self i0) (process_chunk_ok_self _ _ _ _ _ _ _ hp)
    | succ j' =>
      have h' : ((runChunks_go pdf_hash today net (i0 + 1) rest
          (process_chunk c.2 i0 pdf_hash today (net i0) st).2).1)[j']? =
          some (Except.ok r) := by
        simpa [runChunks_go] using h
      have hj := ih (i0 + 1) _ j' r h'
      show lookupKey ((runChunks_go pdf_hash today net (i0 + 1) rest
          (process_chunk c.2 i0 pdf_hash today (net i0) st).2).2).cache
          (pdf_hash, i0 + (j' + 1)) = some r
      rw [show i0 + (j' + 1) = (i0 + 1) + j' by omega]
      exact hj

theorem runChunks_go_all_hit (pdf_hash today : String)
    (net : Nat → String → EndpointResponse) :
    ∀ (cs : List (Nat × List Nat)) (i0 : Nat) (st : ClientState)
      (g : Nat → ParseResult),
    (∀ j, j < cs.length → lookupKey st.cache (pdf_hash, i0 + j) = some (g j)) →
    (runChunks_go pdf_hash today net i0 cs st).1 =
      (List.range cs.length).map (fun j => Except.ok (g j)) ∧
    (runChunks_go pdf_hash today net i0 cs st).2 = st := by
  intro cs
  induction cs with
  | nil =>
    intro i0 st g h
    exact ⟨rfl, rfl⟩
  | cons c rest ih =>
    intro i0 st g h
    have hr := h 0 (by simp)
    rw [Nat.add_zero] at hr
    have hpc := process_chunk_hit c.2 i0 pdf_hash today (net i0) st (g 0) hr
    have hrest := ih (i0 + 1) st (fun j => g (j + 1)) (fun j hj => by
      have hh := h (j + 1) (by simpa using Nat.succ_lt_succ hj)
      rw [show i0 + (j + 1) = (i0 + 1) + j by omega] at hh
      exact hh)
    constructor
    · show (process_chunk c.2 i0 pdf_hash today (net i0) st).1 ::
        (runChunks_go pdf_hash today net (i0 + 1) rest
          (process_chunk c.2 i0 pdf_hash today (net i0) st).2).1 = _
      rw [hpc]
      show Except.ok (g 0) ::
        (runChunks_go pdf_hash today net (i0 + 1) rest st).1 = _
      rw [hrest.1, List.length_cons, List.range_succ_eq_map, List.map_cons,
        List.map_map]
      rfl
    · show (runChunks_go pdf_hash today net (i0 + 1) rest
        (process_chunk c.2 i0 pdf_hash today (net i0) st).2).2 = st
      rw [hpc]
      exact hrest.2

theorem firstError_map_ok (f : Nat → ParseResult) :
    ∀ xs : List Nat, firstError (xs.map fun j => Except.ok (f j)) = none := by
  intro xs
  induction xs with
  | nil => rfl
  | cons x rest ih => exact ih

theorem collectOk_map_ok (f : Nat → ParseResult) :
    ∀ xs : List Nat, collectOk (xs.map fun j => Except.ok (f j)) = xs.map f := by
  intro xs
  induction xs with
  | nil => rfl
  | cons x rest ih =>
    show f x :: collectOk (rest.map fun j => Except.ok (f j)) = f x :: rest.map f
    rw [ih]

theorem process_pdf_full_cache (pdf_hash today : String)
    (net : Nat → String → EndpointResponse) (fetch : String → Option (List Nat))
    (npages : Nat) (st : ClientState) (g : Nat → ParseResult)
    (hfull : ∀ j, j < (split_pdf npages).1.length →
      lookupKey st.cache (pdf_hash, j) = some (g j))
    (hquota : check_limit st.usage today 0 = true) :
    process_pdf pdf_hash today net fetch npages st =
      (Except.ok
        ((merge_results fetch ((List.range (split_pdf npages).1.length).map g)).1,
         (merge_results fetch ((List.range (split_pdf npages).1.length).map g)).2.1),
       { st with calls := st.calls ++
         (merge_results fetch ((List.range (split_pdf npages).1.length).map g)).2.2 }) := by
  have hall := runChunks_go_all_hit pdf_hash today net (split_pdf npages).1 0 st g
    (fun j hj => by rw [Nat.zero_add]; exact hfull j hj)
  simp only [process_pdf, hquota, if_true, runChunks]
  rw [hall.1, firstError_map_ok, collectOk_map_ok, hall.2]

theorem str_empty_append (s : String) : "" ++ s = s := by
  apply String.ext
  rw [String.data_append]
  exact List.nil_append s.data

theorem string_append_right_cancel (a b c : String) (h : a ++ c = b ++ c) :
    a = b := by
  apply String.ext
  have hd := congrArg String.data h
  rw [String.data_append, String.data_append] at hd
  exact List.append_cancel_right hd

theorem new_image_path_ne (p : String) :
    new_image_path 0 p ≠ new_image_path 1 p := by
  intro h
  simp only [new_image_path] at h
  have := string_append_right_cancel _ _ _ h
  exact absurd this (by decide)

theorem firstError_of_mem_error (e : String) :
    ∀ outs : List (Except String ParseResult),
    Except.error e ∈ outs → ∃ e', firstError outs = some e' := by
  intro outs
  induction outs with
  | nil =>
    intro h
    simp at h
  | cons o rest ih =>
    intro h
    cases o with
    | error e0 => exact ⟨e0, rfl⟩
    | ok r =>
      rcases List.mem_cons.mp h with heq | hmem
      · exact absurd heq (by simp)
      · exact ih hmem

/-! ## Claim theorems -/

/-- C9: `check_limit(identity, pagesToAdd)` returns true iff today's usage
plus `pagesToAdd` is at most the daily limit 3000; at exactly the limit
`check_limit(1)` is false, one page under it is true. -/
theorem check_limit_boundary (data : List (String × Nat)) (today : String)
    (p : Nat) :
    (check_limit data today p = true ↔
       get_todays_usage data today + p ≤ limit) ∧
    limit = 3000 ∧
    (get_todays_usage data today = limit → check_limit data today 1 = false) ∧
    (get_todays_usage data today = limit - 1 → check_limit data today 1 = true) := by
  refine ⟨by simp [check_limit], rfl, ?_, ?_⟩
  · intro h
    simp [check_limit, h, limit]
  · intro h
    simp [check_limit, h, limit]

/-- Witness for C9 at a concrete tracker state: at usage 3000 adding one
page is rejected, at 2999 it is allowed. -/
theorem check_limit_boundary_witness :
    check_limit [("2026-10-12", 3000)] "2026-10-12" 1 = false ∧
    check_limit [("2026-10-12", 2999)] "2026-10-12" 1 = true := by
  constructor
  · exact (check_limit_boundary [("2026-10-12", 3000)] "2026-10-12" 1).2.2.1 (by rfl)
  · exact (check_limit_boundary [("2026-10-12", 2999)] "2026-10-12" 1).2.2.2 (by rfl)

/-- C10: if the usage-store file exists but does not decode as JSON,
`_load` does not fail: it resets the in-memory data to empty, so every
day's usage reads as 0. -/
theorem load_invalid_json_resets
    (decode : String → Option (List (String × Nat))) (s : String)
    (file : Option String) (h1 : file = some s) (h2 : decode s = none) :
    load_usage decode file = [] ∧
    ∀ day, get_todays_usage (load_usage decode file) day = 0 := by
  subst h1
  simp [load_usage, h2, get_todays_usage, lookupKey]

/-- Witness for C10: a decoder that rejects the file contents yields an
empty store whose usage reads 0. -/
theorem load_invalid_json_resets_witness :
    load_usage (fun _ => none) (some "not valid json") = [] ∧
    get_todays_usage (load_usage (fun _ => none) (some "not valid json")) "2026-10-12" = 0 := by
  refine ⟨?_, ?_⟩
  · exact (load_invalid_json_resets (fun _ => none) "not valid json" _ rfl rfl).1
  · exact (load_invalid_json_resets (fun _ => none) "not valid json" _ rfl rfl).2 "2026-10-12"

/-- C1 (code evaluated at the failing input): when both endpoints reject
the credential with HTTP 401, `process_chunk` does not surface any
credential-specific error and does not stop at the first endpoint: it
proceeds to the secondary endpoint and finally raises the generic
`All API endpoints failed.` error. -/
theorem auth_error_not_distinguished :
    (process_chunk [] 0 "h" "2026-10-12"
        (fun _ => EndpointResponse.resp 401 none) ⟨[], [], []⟩).1 =
      Except.error "All API endpoints failed." ∧
    (process_chunk [] 0 "h" "2026-10-12"
        (fun _ => EndpointResponse.resp 401 none) ⟨[], [], []⟩).2.calls =
      [primary_url, secondary_url] := by
  exact ⟨rfl, rfl⟩

/-- C5 (counterexample to "the raised error carries the per-endpoint
failure reasons"): two runs whose endpoints fail with entirely different
reasons raise the very same error value, the fixed string
`All API endpoints failed.` — so the error carries no reasons. -/
theorem remote_error_reasons_not_carried :
    ((fun u => if u = primary_url then EndpointResponse.exn "timeout"
               else EndpointResponse.resp 500 none) primary_url ≠
     (fun u => if u = primary_url then EndpointResponse.exn "connection refused"
               else EndpointResponse.resp 503 none) primary_url) ∧
    (process_chunk [] 0 "h" "2026-10-12"
        (fun u => if u = primary_url then EndpointResponse.exn "timeout"
                  else EndpointResponse.resp 500 none) ⟨[], [], []⟩).1 =
      Except.error "All API endpoints failed." ∧
    (process_chunk [] 0 "h" "2026-10-12"
        (fun u => if u = primary_url then EndpointResponse.exn "connection refused"
                  else EndpointResponse.resp 503 none) ⟨[], [], []⟩).1 =
      (process_chunk [] 0 "h" "2026-10-12"
        (fun u => if u = primary_url then EndpointResponse.exn "timeout"
                  else EndpointResponse.resp 500 none) ⟨[], [], []⟩).1 := by
  refine ⟨by decide, ?_, ?_⟩ <;> rfl

/-- C5 (amended): `process_chunk` fails only after every configured
endpoint has been attempted (in order) and has failed; the raised error
is the fixed generic message `All API endpoints failed.` and does not
carry the per-endpoint failure reasons. -/
theorem remote_parse_error_after_exhaustion (file_bytes : List Nat)
    (chunk_index : Nat) (pdf_hash today : String)
    (net : String → EndpointResponse) (st : ClientState) (e : String)
    (h : (process_chunk file_bytes chunk_index pdf_hash today net st).1 =
      Except.error e) :
    e = "All API endpoints failed." ∧
    (process_chunk file_bytes chunk_index pdf_hash today net st).2.calls =
      st.calls ++ urls ∧
    ∀ u ∈ urls, isValidResponse (net u) = false := by
  cases hc : lookupKey st.cache (pdf_hash, chunk_index) with
  | some r => simp [process_chunk, hc] at h
  | none =>
    have heq : process_chunk file_bytes chunk_index pdf_hash today net st =
        attempt_urls (pdf_hash, chunk_index) today net urls st := by
      simp [process_chunk, hc]
    rw [heq] at h ⊢
    obtain ⟨he, hst, hall⟩ := attempt_urls_error _ _ _ _ _ _ h
    exact ⟨he, by rw [hst], hall⟩

/-- Witness for C5 at an environment where both endpoints fail: the call
log gains both endpoints in order and each response was invalid. -/
theorem remote_parse_error_after_exhaustion_witness :
    (process_chunk [] 0 "h" "2026-10-12" (fun _ => EndpointResponse.exn "down")
        ⟨[], [], []⟩).2.calls = [] ++ urls ∧
    ∀ u ∈ urls,
      isValidResponse ((fun _ => EndpointResponse.exn "down") u) = false :=
  ⟨(remote_parse_error_after_exhaustion [] 0 "h" "2026-10-12"
      (fun _ => EndpointResponse.exn "down") ⟨[], [], []⟩
      "All API endpoints failed." rfl).2.1,
   (remote_parse_error_after_exhaustion [] 0 "h" "2026-10-12"
      (fun _ => EndpointResponse.exn "down") ⟨[], [], []⟩
      "All API endpoints failed." rfl).2.2⟩

/-- C6: on the first valid response for a cache-missing chunk,
`process_chunk` persists the result under `(pdf_hash, chunk_index)` and
charges the quota tracker exactly 10 pages — whatever the chunk's byte
content (and hence its page count) is. -/
theorem first_valid_persists_and_charges_ten (file_bytes : List Nat)
    (chunk_index : Nat) (pdf_hash today : String)
    (net : String → EndpointResponse) (st : ClientState) (r : ParseResult)
    (hmiss : lookupKey st.cache (pdf_hash, chunk_index) = none)
    (hok : (process_chunk file_bytes chunk_index pdf_hash today net st).1 =
      Except.ok r) :
    lookupKey (process_chunk file_bytes chunk_index pdf_hash today net st).2.cache
      (pdf_hash, chunk_index) = some r ∧
    get_todays_usage
        (process_chunk file_bytes chunk_index pdf_hash today net st).2.usage today =
      get_todays_usage st.usage today + 10 := by
  have heq : process_chunk file_bytes chunk_index pdf_hash today net st =
      attempt_urls (pdf_hash, chunk_index) today net urls st := by
    simp [process_chunk, hmiss]
  rw [heq] at hok ⊢
  obtain ⟨hcache, husage⟩ := attempt_urls_ok _ _ _ _ _ _ hok
  rw [hcache, husage]
  exact ⟨lookupKey_dictInsert_self _ _ _, get_todays_usage_add_usage _ _ _⟩

/-- Witness for C6: a five-page final chunk (pages 10–14 of a 15-page
document) still adds 10 to the day's usage when it first succeeds. -/
theorem first_valid_persists_and_charges_ten_witness :
    lookupKey (process_chunk [10, 11, 12, 13, 14] 1 "h" "2026-10-12"
        (fun _ => EndpointResponse.resp 200 (some ⟨[⟨"page text", []⟩]⟩))
        ⟨[], [], []⟩).2.cache ("h", 1) = some ⟨[⟨"page text", []⟩]⟩ ∧
    get_todays_usage (process_chunk [10, 11, 12, 13, 14] 1 "h" "2026-10-12"
        (fun _ => EndpointResponse.resp 200 (some ⟨[⟨"page text", []⟩]⟩))
        ⟨[], [], []⟩).2.usage "2026-10-12" =
      get_todays_usage [] "2026-10-12" + 10 :=
  first_valid_persists_and_charges_ten [10, 11, 12, 13, 14] 1 "h" "2026-10-12"
    (fun _ => EndpointResponse.resp 200 (some ⟨[⟨"page text", []⟩]⟩))
    ⟨[], [], []⟩ ⟨[⟨"page text", []⟩]⟩ rfl rfl

/-- C7: if the primary endpoint's outcome is not a valid response and the
secondary returns a valid one, `process_chunk` returns the secondary's
result, the cache stores the secondary's result, and each endpoint is
attempted exactly once, in order (no retry of the failed primary). -/
theorem failover_returns_secondary (file_bytes : List Nat) (chunk_index : Nat)
    (pdf_hash today : String) (net : String → EndpointResponse)
    (st : ClientState) (r : ParseResult)
    (hmiss : lookupKey st.cache (pdf_hash, chunk_index) = none)
    (hbad : isValidResponse (net primary_url) = false)
    (hgood : net secondary_url = EndpointResponse.resp 200 (some r)) :
    (process_chunk file_bytes chunk_index pdf_hash today net st).1 = Except.ok r ∧
    lookupKey (process_chunk file_bytes chunk_index pdf_hash today net st).2.cache
      (pdf_hash, chunk_index) = some r ∧
    (process_chunk file_bytes chunk_index pdf_hash today net st).2.calls =
      st.calls ++ [primary_url, secondary_url] := by
  have heq : process_chunk file_bytes chunk_index pdf_hash today net st =
      attempt_urls (pdf_hash, chunk_index) today net urls st := by
    simp [process_chunk, hmiss]
  rw [heq, show urls = [primary_url, secondary_url] from rfl,
    attempt_urls_step_fail _ _ _ _ _ _ hbad,
    attempt_urls_step_ok _ _ _ _ _ _ _ hgood]
  refine ⟨rfl, lookupKey_dictInsert_self _ _ _, ?_⟩
  simp

/-- Witness for C7: primary answers 200 with a malformed body, secondary
answers a valid result; the secondary's result is returned and cached. -/
theorem failover_returns_secondary_witness :
    (process_chunk [] 0 "h" "2026-10-12"
        (fun u => if u = primary_url then EndpointResponse.resp 200 none
                  else EndpointResponse.resp 200 (some ⟨[⟨"t", []⟩]⟩))
        ⟨[], [], []⟩).1 = Except.ok ⟨[⟨"t", []⟩]⟩ ∧
    lookupKey (process_chunk [] 0 "h" "2026-10-12"
        (fun u => if u = primary_url then EndpointResponse.resp 200 none
                  else EndpointResponse.resp 200 (some ⟨[⟨"t", []⟩]⟩))
        ⟨[], [], []⟩).2.cache ("h", 0) = some ⟨[⟨"t", []⟩]⟩ ∧
    (process_chunk [] 0 "h" "2026-10-12"
        (fun u => if u = primary_url then EndpointResponse.resp 200 none
                  else EndpointResponse.resp 200 (some ⟨[⟨"t", []⟩]⟩))
        ⟨[], [], []⟩).2.calls = [] ++ [primary_url, secondary_url] :=
  failover_returns_secondary [] 0 "h" "2026-10-12"
    (fun u => if u = primary_url then EndpointResponse.resp 200 none
              else EndpointResponse.resp 200 (some ⟨[⟨"t", []⟩]⟩))
    ⟨[], [], []⟩ ⟨[⟨"t", []⟩]⟩ rfl (by decide) (by decide)

/-- C2: for a document with `n` pages and chunk size 10, `split_pdf`
returns the total page count `n` and `ceil(n/10)` chunks; each chunk is
the consecutive page range starting at its `start_page` with
`min(10, remaining)` pages, and the chunks' pages exactly partition
`[0, n)` in order, with no gaps or overlaps. -/
theorem splitter_partition (n : Nat) :
    (split_pdf n).2 = n ∧
    (split_pdf n).1.length = (n + chunk_size - 1) / chunk_size ∧
    (∀ c ∈ (split_pdf n).1,
      c.2 = List.range' c.1 (min chunk_size (n - c.1)) ∧
      c.2.length = min chunk_size (n - c.1)) ∧
    (split_pdf n).1.flatMap (fun c => c.2) = List.range n := by
  refine ⟨rfl, ?_, ?_, ?_⟩
  · show (split_go 0 n).length = _
    rw [split_go_length, Nat.sub_zero]
  · intro c hc
    have h := split_go_mem 0 n c hc
    exact ⟨h, by rw [h, List.length_range']⟩
  · show (split_go 0 n).flatMap (fun c => c.2) = _
    rw [split_go_flat, Nat.sub_zero, List.range_eq_range']

/-- Witness for C2 at a 15-page document: two chunks, of 10 and 5 pages,
partitioning `[0, 15)`. -/
theorem splitter_partition_witness :
    (split_pdf 15).2 = 15 ∧
    (split_pdf 15).1.length = 2 ∧
    (split_pdf 15).1.flatMap (fun c => c.2) = List.range 15 :=
  ⟨(splitter_partition 15).1,
   by rw [(splitter_partition 15).2.1]; rfl,
   (splitter_partition 15).2.2.2⟩

/-- C4 (counterexample to "zero remote calls"): a 5-page document whose
single chunk is already cached, the cached result referencing one image;
`process_pdf` starts from an empty network log and still issues the image
GET — the merge re-downloads image bytes on every run, cache or not. -/
theorem full_cache_still_fetches_images :
    (process_pdf "h" "2026-10-12" (fun _ _ => EndpointResponse.exn "no net")
        (fun _ => some [9]) 5
        ⟨[(("h", 0), ⟨[⟨"see ![](images/img_0.jpg)",
            [("images/img_0.jpg", "http://imgs.example/i0.jpg")]⟩]⟩)], [], []⟩).2.calls =
      ["http://imgs.example/i0.jpg"] ∧
    (process_pdf "h" "2026-10-12" (fun _ _ => EndpointResponse.exn "no net")
        (fun _ => some [9]) 5
        ⟨[(("h", 0), ⟨[⟨"see ![](images/img_0.jpg)",
            [("images/img_0.jpg", "http://imgs.example/i0.jpg")]⟩]⟩)], [], []⟩).2.calls ≠
      ([] : List String) := by
  have hlen : (split_pdf 5).1.length = 1 := by
    show (split_go 0 5).length = 1
    rw [split_go_length]
    rfl
  have h := process_pdf_full_cache "h" "2026-10-12"
    (fun _ _ => EndpointResponse.exn "no net") (fun _ => some [9]) 5
    ⟨[(("h", 0), ⟨[⟨"see ![](images/img_0.jpg)",
        [("images/img_0.jpg", "http://imgs.example/i0.jpg")]⟩]⟩)], [], []⟩
    (fun _ => ⟨[⟨"see ![](images/img_0.jpg)",
        [("images/img_0.jpg", "http://imgs.example/i0.jpg")]⟩]⟩)
    (by intro j hj; rw [hlen] at hj; interval_cases j; rfl) rfl
  have hcalls : (process_pdf "h" "2026-10-12"
      (fun _ _ => EndpointResponse.exn "no net") (fun _ => some [9]) 5
      ⟨[(("h", 0), ⟨[⟨"see ![](images/img_0.jpg)",
          [("images/img_0.jpg", "http://imgs.example/i0.jpg")]⟩]⟩)], [], []⟩).2.calls =
      ["http://imgs.example/i0.jpg"] := by
    rw [h]
    show (merge_results _ ((List.range (split_pdf 5).1.length).map _)).2.2 = _
    rw [hlen]
    rfl
  exact ⟨hcalls, by rw [hcalls]; decide⟩

/-- C4 (amended): a cache hit makes `process_chunk` return the cached
result with the state untouched (no network call, no quota change); a
`process_pdf` run over a fully populated cache leaves the cache and the
usage counters unchanged (zero parse-endpoint calls, zero quota
increment) and succeeds with output determined by the cache alone, so a
second identical run returns byte-identical output — but each run's
network log grows by exactly the merge's image GET urls, because image
bytes are re-downloaded every time. -/
theorem cache_hit_no_parse_calls_idempotent
    (file_bytes : List Nat) (chunk_index : Nat) (pdf_hash today : String)
    (net : String → EndpointResponse) (netD : Nat → String → EndpointResponse)
    (fetch : String → Option (List Nat)) (npages : Nat)
    (st : ClientState) (r : ParseResult) (g : Nat → ParseResult)
    (hhit : lookupKey st.cache (pdf_hash, chunk_index) = some r)
    (hfull : ∀ j, j < (split_pdf npages).1.length →
      lookupKey st.cache (pdf_hash, j) = some (g j))
    (hquota : check_limit st.usage today 0 = true) :
    process_chunk file_bytes chunk_index pdf_hash today net st =
      (Except.ok r, st) ∧
    (process_pdf pdf_hash today netD fetch npages st).2.cache = st.cache ∧
    (process_pdf pdf_hash today netD fetch npages st).2.usage = st.usage ∧
    (process_pdf pdf_hash today netD fetch npages st).2.calls = st.calls ++
      (merge_results fetch ((List.range (split_pdf npages).1.length).map g)).2.2 ∧
    (∃ out, (process_pdf pdf_hash today netD fetch npages st).1 = Except.ok out) ∧
    (process_pdf pdf_hash today netD fetch npages
        ((process_pdf pdf_hash today netD fetch npages st).2)).1 =
      (process_pdf pdf_hash today netD fetch npages st).1 := by
  have h1 := process_pdf_full_cache pdf_hash today netD fetch npages st g hfull hquota
  have h2 := process_pdf_full_cache pdf_hash today netD fetch npages
    { st with calls := st.calls ++
      (merge_results fetch ((List.range (split_pdf npages).1.length).map g)).2.2 }
    g hfull hquota
  have hst2 : (process_pdf pdf_hash today netD fetch npages st).2 =
      { st with calls := st.calls ++
        (merge_results fetch ((List.range (split_pdf npages).1.length).map g)).2.2 } := by
    rw [h1]
  refine ⟨process_chunk_hit _ _ _ _ _ _ r hhit,
    by rw [h1], by rw [h1], by rw [h1], ⟨_, by rw [h1]⟩, ?_⟩
  rw [hst2, h2, h1]

/-- Witness for amended C4: a 5-page document whose single chunk is
already cached with an image-free result; the run makes no parse call,
leaves usage at zero, its GET log is empty (no images to fetch), and a
second run returns the same output, even though every endpoint would
fail. -/
theorem cache_hit_no_parse_calls_idempotent_witness :
    process_chunk [] 0 "h" "2026-10-12" (fun _ => EndpointResponse.exn "net down")
        ⟨[(("h", 0), ⟨[⟨"a", []⟩]⟩)], [], []⟩ =
      (Except.ok ⟨[⟨"a", []⟩]⟩, ⟨[(("h", 0), ⟨[⟨"a", []⟩]⟩)], [], []⟩) ∧
    (process_pdf "h" "2026-10-12" (fun _ _ => EndpointResponse.exn "net down")
        (fun _ => none) 5 ⟨[(("h", 0), ⟨[⟨"a", []⟩]⟩)], [], []⟩).2.cache =
      [(("h", 0), ⟨[⟨"a", []⟩]⟩)] ∧
    (process_pdf "h" "2026-10-12" (fun _ _ => EndpointResponse.exn "net down")
        (fun _ => none) 5 ⟨[(("h", 0), ⟨[⟨"a", []⟩]⟩)], [], []⟩).2.usage = [] ∧
    (process_pdf "h" "2026-10-12" (fun _ _ => EndpointResponse.exn "net down")
        (fun _ => none) 5 ⟨[(("h", 0), ⟨[⟨"a", []⟩]⟩)], [], []⟩).2.calls = [] ++
      (merge_results (fun _ => none)
        ((List.range (split_pdf 5).1.length).map (fun _ => ⟨[⟨"a", []⟩]⟩))).2.2 ∧
    (∃ out, (process_pdf "h" "2026-10-12" (fun _ _ => EndpointResponse.exn "net down")
        (fun _ => none) 5 ⟨[(("h", 0), ⟨[⟨"a", []⟩]⟩)], [], []⟩).1 = Except.ok out) ∧
    (process_pdf "h" "2026-10-12" (fun _ _ => EndpointResponse.exn "net down")
        (fun _ => none) 5
        ((process_pdf "h" "2026-10-12" (fun _ _ => EndpointResponse.exn "net down")
          (fun _ => none) 5 ⟨[(("h", 0), ⟨[⟨"a", []⟩]⟩)], [], []⟩).2)).1 =
      (process_pdf "h" "2026-10-12" (fun _ _ => EndpointResponse.exn "net down")
        (fun _ => none) 5 ⟨[(("h", 0), ⟨[⟨"a", []⟩]⟩)], [], []⟩).1 :=
  cache_hit_no_parse_calls_idempotent [] 0 "h" "2026-10-12"
    (fun _ => EndpointResponse.exn "net down")
    (fun _ _ => EndpointResponse.exn "net down") (fun _ => none) 5
    ⟨[(("h", 0), ⟨[⟨"a", []⟩]⟩)], [], []⟩ ⟨[⟨"a", []⟩]⟩ (fun _ => ⟨[⟨"a", []⟩]⟩) rfl
    (by
      intro j hj
      have hlen : (split_pdf 5).1.length = 1 := by
        show (split_go 0 5).length = 1
        rw [split_go_length]
        rfl
      rw [hlen] at hj
      interval_cases j
      rfl)
    rfl

/-- C3: if any chunk of the batch fails, `process_pdf` returns an error —
no `(markdown, assets)` output reaches the caller — while every chunk
whose own run succeeded is persisted in the chunk cache of the final
state. -/
theorem process_pdf_all_or_nothing (pdf_hash today : String)
    (net : Nat → String → EndpointResponse) (fetch : String → Option (List Nat))
    (npages : Nat) (st : ClientState) (e : String)
    (hquota : check_limit st.usage today 0 = true)
    (hfail : Except.error e ∈ (runChunks pdf_hash today net (split_pdf npages).1 st).1) :
    (∃ e', (process_pdf pdf_hash today net fetch npages st).1 = Except.error e') ∧
    (process_pdf pdf_hash today net fetch npages st).2 =
      (runChunks pdf_hash today net (split_pdf npages).1 st).2 ∧
    ∀ i r, ((runChunks pdf_hash today net (split_pdf npages).1 st).1)[i]? =
        some (Except.ok r) →
      lookupKey ((process_pdf pdf_hash today net fetch npages st).2).cache
        (pdf_hash, i) = some r := by
  obtain ⟨e', he'⟩ := firstError_of_mem_error e _ hfail
  have hpdf : process_pdf pdf_hash today net fetch npages st =
      (Except.error e', (runChunks pdf_hash today net (split_pdf npages).1 st).2) := by
    simp only [process_pdf, hquota, if_true]
    rw [he']
  refine ⟨⟨e', by rw [hpdf]⟩, by rw [hpdf], ?_⟩
  intro i r hi
  rw [hpdf]
  have hc := runChunks_go_cache_ok pdf_hash today net (split_pdf npages).1 0 st i r hi
  rw [Nat.zero_add] at hc
  exact hc

/-- Witness for C3: a 15-page document (2 chunks) whose first chunk
succeeds and whose second fails on all endpoints: `process_pdf` errors,
yet chunk 0 is persisted in the cache. -/
theorem process_pdf_all_or_nothing_witness :
    (∃ e', (process_pdf "h" "2026-10-12"
        (fun i _ => if i = 0 then EndpointResponse.resp 200 (some ⟨[⟨"a", []⟩]⟩)
                    else EndpointResponse.exn "boom")
        (fun _ => none) 15 ⟨[], [], []⟩).1 = Except.error e') ∧
    lookupKey ((process_pdf "h" "2026-10-12"
        (fun i _ => if i = 0 then EndpointResponse.resp 200 (some ⟨[⟨"a", []⟩]⟩)
                    else EndpointResponse.exn "boom")
        (fun _ => none) 15 ⟨[], [], []⟩).2).cache ("h", 0) =
      some ⟨[⟨"a", []⟩]⟩ := by
  have hsplit : (split_pdf 15).1 = [(0, List.range' 0 10), (10, List.range' 10 5)] := by
    show split_go 0 15 = _
    rw [split_go, dif_pos (show 0 < 15 by omega)]
    rw [split_go, dif_pos (show 0 + chunk_size < 15 by simp [chunk_size])]
    rw [split_go, dif_neg (show ¬ (0 + chunk_size + chunk_size < 15) by simp [chunk_size])]
    rfl
  have houts : (runChunks "h" "2026-10-12"
      (fun i _ => if i = 0 then EndpointResponse.resp 200 (some ⟨[⟨"a", []⟩]⟩)
                  else EndpointResponse.exn "boom")
      [(0, List.range' 0 10), (10, List.range' 10 5)] ⟨[], [], []⟩).1 =
      [Except.ok ⟨[⟨"a", []⟩]⟩, Except.error "All API endpoints failed."] := rfl
  have happ := process_pdf_all_or_nothing "h" "2026-10-12"
    (fun i _ => if i = 0 then EndpointResponse.resp 200 (some ⟨[⟨"a", []⟩]⟩)
                else EndpointResponse.exn "boom")
    (fun _ => none) 15 ⟨[], [], []⟩ "All API endpoints failed." rfl
    (by rw [hsplit, houts]; simp)
  exact ⟨happ.1, happ.2.2 0 ⟨[⟨"a", []⟩]⟩ (by rw [hsplit, houts]; rfl)⟩

/-- C8: when two distinct chunks each carry an image with the same
original relative path, the merged asset map has two distinct keys —
each path rewritten with a `chunk_<index>_` token — and the merged
markdown is the chunk texts in order, each with its occurrences of the
path rewritten to its own chunk's key. -/
theorem merged_image_paths_unique (fetch : String → Option (List Nat))
    (p t0 t1 u0 u1 : String) (b0 b1 : List Nat)
    (hp : p ≠ "")
    (hf0 : fetch u0 = some b0) (hf1 : fetch u1 = some b1) :
    new_image_path 0 p ≠ new_image_path 1 p ∧
    merge_results fetch [⟨[⟨t0, [(p, u0)]⟩]⟩, ⟨[⟨t1, [(p, u1)]⟩]⟩] =
      (pyReplace t0 p (new_image_path 0 p) ++ "\n\n" ++
        (pyReplace t1 p (new_image_path 1 p) ++ "\n\n"),
       [(new_image_path 0 p, b0), (new_image_path 1 p, b1)],
       [u0, u1]) := by
  refine ⟨new_image_path_ne p, ?_⟩
  simp only [merge_results, merge_results_go, process_result_pages,
    process_page_images, hf0, hf1, dictInsert, if_neg (new_image_path_ne p),
    str_empty_append, List.nil_append, List.cons_append]

/-- Witness for C8: two chunks both naming their image
`images/img_0.jpg`; the merged asset map keys are
`images/chunk_0_img_0.jpg` and `images/chunk_1_img_0.jpg`. -/
theorem merged_image_paths_unique_witness :
    new_image_path 0 "images/img_0.jpg" ≠ new_image_path 1 "images/img_0.jpg" ∧
    merge_results (fun u => if u = "u0" then some [7] else some [8])
        [⟨[⟨"page ![](images/img_0.jpg) one", [("images/img_0.jpg", "u0")]⟩]⟩,
         ⟨[⟨"page ![](images/img_0.jpg) two", [("images/img_0.jpg", "u1")]⟩]⟩] =
      (pyReplace "page ![](images/img_0.jpg) one" "images/img_0.jpg"
          (new_image_path 0 "images/img_0.jpg") ++ "\n\n" ++
        (pyReplace "page ![](images/img_0.jpg) two" "images/img_0.jpg"
          (new_image_path 1 "images/img_0.jpg") ++ "\n\n"),
       [(new_image_path 0 "images/img_0.jpg", [7]),
        (new_image_path 1 "images/img_0.jpg", [8])],
       ["u0", "u1"]) :=
  merged_image_paths_unique (fun u => if u = "u0" then some [7] else some [8])
    "images/img_0.jpg" "page ![](images/img_0.jpg) one"
    "page ![](images/img_0.jpg) two" "u0" "u1" [7] [8]
    (by decide) rfl rfl

end Pdf2md
